import Mathlib

/-!
# Verification of the rusmpp-core TLV subsystem

Shallow embedding of the TLV (tag-length-value) record model and the
per-PDU TLV container capability of `rusmpp-core`
(`src/tlvs/owned/tlv.rs`, `src/tlvs/container.rs`,
`src/tlvs/container_macro.rs`), together with proofs of the spec's
claims about it.

Conventions of the embedding:
* Rust machine integers (`u16`, `u32`, `u64`, `usize`) are modelled as
  `Nat`; a truncating cast `as u16` is modelled as `% 65536`.
* Byte buffers (`Vec<u8>`, `&[u8]`) are modelled as `List Nat`
  (each element a byte value).
* Rust `Option` maps to Lean `Option`; `&mut self` methods become
  state-passing functions returning the new state.
-/

set_option autoImplicit false

namespace Rusmpp

/-- Modelled from the spec: the definition of `TlvTag` (`src/tlvs/tag.rs`)
is not under `src/`. Per the spec, a tag is a 16-bit identifier
partitioned into a closed set of known standard tags (of which only
`MessagePayload` matters to the claims; the remaining known tags are
collapsed into `KnownTag` carrying an opaque identifier) and an open
`Other` variant carrying the raw numeric tag. -/
inductive TlvTag where
  | MessagePayload : TlvTag
  | KnownTag (id : Nat) : TlvTag
  | Other (tag : Nat) : TlvTag
deriving DecidableEq, Repr

/-- Modelled from the spec: the definition of `TlvValue` is not under
`src/`. Per the spec, a value is a tagged union: each known variant
holds a protocol-defined payload that is opaque to this core beyond its
tag and encoded byte length (collapsed here into `Known` carrying both),
plus an `Other` variant holding `{ tag, raw bytes }`. The `Other` shape
is also visible at `src/tlvs/owned/tlv.rs` lines 86-89
(`TlvValue::Other { tag, value: AnyOctetString }`); `AnyOctetString` is
modelled as its byte list. -/
inductive TlvValue where
  | Known (tag : TlvTag) (encodedLength : Nat) : TlvValue
  | Other (tag : TlvTag) (value : List Nat) : TlvValue
deriving DecidableEq, Repr

/-- `TlvValue::tag()`: the tag of a value. For a known variant this is
the tag designated by the variant; for `Other` it is the stored tag. -/
def TlvValue.tag : TlvValue → TlvTag
  | .Known t _ => t
  | .Other t _ => t

/-- `Length::length()` for `TlvValue`: the encoded byte length of the
value. For `Other` this is the byte count of the raw payload; for a
known variant it is the (opaque) encoded length it carries. -/
def TlvValue.length : TlvValue → Nat
  | .Known _ n => n
  | .Other _ v => v.length

/-- The `Tlv` struct (`src/tlvs/owned/tlv.rs` lines 38-43):
`{ tag: TlvTag, value_length: u16, value: Option<TlvValue> }`. -/
structure Tlv where
  tag : TlvTag
  value_length : Nat
  value : Option TlvValue
deriving DecidableEq, Repr

/-- `Tlv::new` (`tlv.rs` lines 46-56): derives tag and length from the
value; `value.length() as u16` is the truncating cast, hence `% 65536`. -/
def Tlv.new (value : TlvValue) : Tlv :=
  { tag := value.tag
    value_length := value.length % 65536
    value := some value }

/-- `Tlv::new_custom` (`tlv.rs` lines 81-96): wraps a raw byte payload
under `TlvTag::Other(tag)`; `value.len() as u16` is the truncating
cast, hence `% 65536`. -/
def Tlv.new_custom (tag : Nat) (value : List Nat) : Tlv :=
  { tag := TlvTag.Other tag
    value_length := value.length % 65536
    value := some (TlvValue.Other (TlvTag.Other tag) value) }

/-- Big-endian bytes of a `u16` (`u16::to_be_bytes`). -/
def u16_to_be_bytes (x : Nat) : List Nat :=
  [x / 2 ^ 8 % 256, x % 256]

/-- Big-endian bytes of a `u32` (`u32::to_be_bytes`). -/
def u32_to_be_bytes (x : Nat) : List Nat :=
  [x / 2 ^ 24 % 256, x / 2 ^ 16 % 256, x / 2 ^ 8 % 256, x % 256]

/-- Big-endian bytes of a `u64` (`u64::to_be_bytes`). -/
def u64_to_be_bytes (x : Nat) : List Nat :=
  [x / 2 ^ 56 % 256, x / 2 ^ 48 % 256, x / 2 ^ 40 % 256, x / 2 ^ 32 % 256,
   x / 2 ^ 24 % 256, x / 2 ^ 16 % 256, x / 2 ^ 8 % 256, x % 256]

/-- `u16::from_be_bytes([b0, b1])`. -/
def u16_from_be_bytes (b0 b1 : Nat) : Nat :=
  b0 * 2 ^ 8 + b1

/-- `u32::from_be_bytes([b0, b1, b2, b3])`. -/
def u32_from_be_bytes (b0 b1 b2 b3 : Nat) : Nat :=
  b0 * 2 ^ 24 + b1 * 2 ^ 16 + b2 * 2 ^ 8 + b3

/-- `u64::from_be_bytes([b0, ..., b7])`. -/
def u64_from_be_bytes (b0 b1 b2 b3 b4 b5 b6 b7 : Nat) : Nat :=
  b0 * 2 ^ 56 + b1 * 2 ^ 48 + b2 * 2 ^ 40 + b3 * 2 ^ 32 +
    b4 * 2 ^ 24 + b5 * 2 ^ 16 + b6 * 2 ^ 8 + b7

/-- `Tlv::new_custom_u16` (`tlv.rs` lines 99-101). -/
def Tlv.new_custom_u16 (tag : Nat) (value : Nat) : Tlv :=
  Tlv.new_custom tag (u16_to_be_bytes value)

/-- `Tlv::new_custom_u32` (`tlv.rs` lines 104-106). -/
def Tlv.new_custom_u32 (tag : Nat) (value : Nat) : Tlv :=
  Tlv.new_custom tag (u32_to_be_bytes value)

/-- `Tlv::new_custom_u64` (`tlv.rs` lines 109-111). -/
def Tlv.new_custom_u64 (tag : Nat) (value : Nat) : Tlv :=
  Tlv.new_custom tag (u64_to_be_bytes value)

/-- `Tlv::new_custom_string` (`tlv.rs` lines 114-118): UTF-8 bytes of
the string plus one trailing zero byte (null terminator). The string
argument is modelled by its UTF-8 byte list. -/
def Tlv.new_custom_string (tag : Nat) (value : List Nat) : Tlv :=
  Tlv.new_custom tag (value ++ [0])

/-- `Tlv::extract_raw_bytes` (`tlv.rs` lines 121-127): the payload only
if the record's value is the raw-bytes (`Other`) variant. -/
def Tlv.extract_raw_bytes (t : Tlv) : Option (List Nat) :=
  match t.value with
  | some (TlvValue.Other _ v) => some v
  | _ => none

/-- `Tlv::extract_u16` (`tlv.rs` lines 130-137). -/
def Tlv.extract_u16 (t : Tlv) : Option Nat :=
  match t.extract_raw_bytes with
  | none => none
  | some bytes =>
    if bytes.length = 2 then
      some (u16_from_be_bytes (bytes.getD 0 0) (bytes.getD 1 0))
    else
      none

/-- `Tlv::extract_u32` (`tlv.rs` lines 140-147). -/
def Tlv.extract_u32 (t : Tlv) : Option Nat :=
  match t.extract_raw_bytes with
  | none => none
  | some bytes =>
    if bytes.length = 4 then
      some (u32_from_be_bytes (bytes.getD 0 0) (bytes.getD 1 0)
        (bytes.getD 2 0) (bytes.getD 3 0))
    else
      none

/-- `Tlv::extract_u64` (`tlv.rs` lines 150-160). -/
def Tlv.extract_u64 (t : Tlv) : Option Nat :=
  match t.extract_raw_bytes with
  | none => none
  | some bytes =>
    if bytes.length = 8 then
      some (u64_from_be_bytes (bytes.getD 0 0) (bytes.getD 1 0)
        (bytes.getD 2 0) (bytes.getD 3 0) (bytes.getD 4 0)
        (bytes.getD 5 0) (bytes.getD 6 0) (bytes.getD 7 0))
    else
      none

/-- Whether a byte is a UTF-8 continuation byte (`0x80..=0xBF`). -/
def utf8IsCont (b : Nat) : Bool :=
  0x80 ≤ b && b ≤ 0xBF

/-- Validity of a byte list as UTF-8, following the table used by Rust's
`core::str` validator (RFC 3629: no overlong forms, no surrogates, no
code points above U+10FFFF). Models the check done by
`String::from_utf8`. -/
def utf8Valid : List Nat → Bool
  | [] => true
  | b0 :: rest =>
    if b0 ≤ 0x7F then
      utf8Valid rest
    else if 0xC2 ≤ b0 && b0 ≤ 0xDF then
      match rest with
      | b1 :: rest1 => utf8IsCont b1 && utf8Valid rest1
      | [] => false
    else if b0 = 0xE0 then
      match rest with
      | b1 :: b2 :: rest2 =>
        (0xA0 ≤ b1 && b1 ≤ 0xBF) && utf8IsCont b2 && utf8Valid rest2
      | _ => false
    else if (0xE1 ≤ b0 && b0 ≤ 0xEC) || b0 = 0xEE || b0 = 0xEF then
      match rest with
      | b1 :: b2 :: rest2 =>
        utf8IsCont b1 && utf8IsCont b2 && utf8Valid rest2
      | _ => false
    else if b0 = 0xED then
      match rest with
      | b1 :: b2 :: rest2 =>
        (0x80 ≤ b1 && b1 ≤ 0x9F) && utf8IsCont b2 && utf8Valid rest2
      | _ => false
    else if b0 = 0xF0 then
      match rest with
      | b1 :: b2 :: b3 :: rest3 =>
        (0x90 ≤ b1 && b1 ≤ 0xBF) && utf8IsCont b2 && utf8IsCont b3 &&
          utf8Valid rest3
      | _ => false
    else if 0xF1 ≤ b0 && b0 ≤ 0xF3 then
      match rest with
      | b1 :: b2 :: b3 :: rest3 =>
        utf8IsCont b1 && utf8IsCont b2 && utf8IsCont b3 && utf8Valid rest3
      | _ => false
    else if b0 = 0xF4 then
      match rest with
      | b1 :: b2 :: b3 :: rest3 =>
        (0x80 ≤ b1 && b1 ≤ 0x8F) && utf8IsCont b2 && utf8IsCont b3 &&
          utf8Valid rest3
      | _ => false
    else
      false

/-- `String::from_utf8(bytes).ok()`: the byte list itself (a Rust
`String` is modelled by its UTF-8 byte list) when valid UTF-8,
otherwise `none`. -/
def string_from_utf8 (bytes : List Nat) : Option (List Nat) :=
  if utf8Valid bytes then some bytes else none

/-- `Tlv::extract_string` (`tlv.rs` lines 163-174): take the raw
payload, remove one trailing zero byte if present
(`bytes.last() == Some(&0)` then `&bytes[..len-1]`), decode as UTF-8. -/
def Tlv.extract_string (t : Tlv) : Option (List Nat) :=
  match t.extract_raw_bytes with
  | none => none
  | some bytes =>
    let stripped := if bytes.getLast? = some 0 then bytes.dropLast else bytes
    string_from_utf8 stripped

/-! ## The container capability

`TlvContainer` (`src/tlvs/container.rs`) is a trait implemented per PDU
type by `impl_tlv_container!` (`src/tlvs/container_macro.rs`). Both
macro variants share the same bodies for `get_tlv`, `get_tlvs`,
`get_tlvs_mut` and `remove_tlv`; they differ only in `push_tlv_raw`:
the `with_short_message_clear` variant additionally calls
`self.clear_short_message_if_message_payload_exists()` after the push.
The shared list-level behaviour is factored out below, then instantiated
for a PDU without a short-message field (`DataSm`) and one with it
(`SubmitSm`). -/

/-- `self.tlvs.iter().find(|tlv| tlv.tag() == tag)` — the body of
`get_tlv` in both macro variants (`container_macro.rs` lines 29-31 and
58-60). -/
def findTlv : List Tlv → TlvTag → Option Tlv
  | [], _ => none
  | t :: rest, tag => if t.tag = tag then some t else findTlv rest tag

/-- The body of `remove_tlv` in both macro variants
(`container_macro.rs` lines 41-47 and 70-76): find the position of the
first record whose tag matches, remove it and return it; `none` and the
unchanged list when absent. -/
def removeTlvList : List Tlv → TlvTag → Option Tlv × List Tlv
  | [], _ => (none, [])
  | t :: rest, tag =>
    if t.tag = tag then
      (some t, rest)
    else
      match removeTlvList rest tag with
      | (r, l) => (r, t :: l)

/-- Modelled from the spec: the PDU structs themselves (`SubmitSm`,
`DeliverSm`, ...) are not under `src/`. Per the spec, a PDU kind that
carries both a fixed short-message body field and the optional TLV
sequence; `short_message` is a byte field whose empty value is `[]`.
Only the fields the TLV subsystem touches are modelled. -/
structure SubmitSm where
  short_message : List Nat
  tlvs : List Tlv
deriving DecidableEq, Repr

/-- Modelled from the spec: the body of
`clear_short_message_if_message_payload_exists` is not under `src/`
(only its call site in `container_macro.rs` line 26 is). Per its name
and the spec's cross-field invariant, it clears the short-message field
to the empty value when a `MessagePayload`-tagged TLV exists in the
PDU's TLV sequence. -/
def SubmitSm.clear_short_message_if_message_payload_exists
    (p : SubmitSm) : SubmitSm :=
  if p.tlvs.any fun t => t.tag = TlvTag.MessagePayload then
    { p with short_message := [] }
  else
    p

/-- `push_tlv_raw`, `with_short_message_clear` variant
(`container_macro.rs` lines 24-27): push the TLV, then run the
short-message clearing hook. -/
def SubmitSm.push_tlv_raw (p : SubmitSm) (tlv : Tlv) : SubmitSm :=
  SubmitSm.clear_short_message_if_message_payload_exists
    { p with tlvs := p.tlvs ++ [tlv] }

/-- `get_tlv` for `SubmitSm` (`container_macro.rs` lines 29-31). -/
def SubmitSm.get_tlv (p : SubmitSm) (tag : TlvTag) : Option Tlv :=
  findTlv p.tlvs tag

/-- `get_tlvs` for `SubmitSm` (`container_macro.rs` lines 33-35). -/
def SubmitSm.get_tlvs (p : SubmitSm) : List Tlv :=
  p.tlvs

/-- `remove_tlv` for `SubmitSm` (`container_macro.rs` lines 41-47). -/
def SubmitSm.remove_tlv (p : SubmitSm) (tag : TlvTag) :
    Option Tlv × SubmitSm :=
  let r := removeTlvList p.tlvs tag
  (r.1, { p with tlvs := r.2 })

/-- `has_tlv`, the trait's derived method (`container.rs` lines 36-38):
`get_tlv(tag).is_some()`. -/
def SubmitSm.has_tlv (p : SubmitSm) (tag : TlvTag) : Bool :=
  (p.get_tlv tag).isSome

/-- `clear_tlvs`, the trait's derived method (`container.rs` lines
40-43): `get_tlvs_mut().clear()` — empties the TLV vector and touches
nothing else. -/
def SubmitSm.clear_tlvs (p : SubmitSm) : SubmitSm :=
  { p with tlvs := [] }

/-- Modelled from the spec: the `DataSm` PDU struct is not under
`src/`. A PDU kind without a short-message field; only its TLV sequence
is relevant to the container capability (basic macro variant). -/
structure DataSm where
  tlvs : List Tlv
deriving DecidableEq, Repr

/-- `push_tlv_raw`, basic variant (`container_macro.rs` lines 54-56):
append at the end, no side effect. -/
def DataSm.push_tlv_raw (p : DataSm) (tlv : Tlv) : DataSm :=
  { p with tlvs := p.tlvs ++ [tlv] }

/-- `get_tlv` for `DataSm` (`container_macro.rs` lines 58-60). -/
def DataSm.get_tlv (p : DataSm) (tag : TlvTag) : Option Tlv :=
  findTlv p.tlvs tag

/-- `get_tlvs` for `DataSm` (`container_macro.rs` lines 62-64). -/
def DataSm.get_tlvs (p : DataSm) : List Tlv :=
  p.tlvs

/-- `remove_tlv` for `DataSm` (`container_macro.rs` lines 70-76). -/
def DataSm.remove_tlv (p : DataSm) (tag : TlvTag) : Option Tlv × DataSm :=
  let r := removeTlvList p.tlvs tag
  (r.1, { p with tlvs := r.2 })

/-- `has_tlv` for `DataSm` (`container.rs` lines 36-38). -/
def DataSm.has_tlv (p : DataSm) (tag : TlvTag) : Bool :=
  (p.get_tlv tag).isSome

/-- `clear_tlvs` for `DataSm` (`container.rs` lines 40-43). -/
def DataSm.clear_tlvs (p : DataSm) : DataSm :=
  { p with tlvs := [] }

/-- The record invariant of the spec (§3, §7): the declared length
field equals the exact encoded byte length of the value when present
(and 0 otherwise), and the tag equals the value's tag. -/
def Tlv.consistent (t : Tlv) : Prop :=
  match t.value with
  | some v => t.value_length = v.length ∧ t.tag = v.tag
  | none => t.value_length = 0

instance (t : Tlv) : Decidable t.consistent := by
  unfold Tlv.consistent
  match t.value with
  | some _ => exact inferInstance
  | none => exact inferInstance

/-! ## List-level lemmas about the shared container bodies -/

theorem findTlv_eq_none {l : List Tlv} {tag : TlvTag}
    (h : ∀ t ∈ l, t.tag ≠ tag) : findTlv l tag = none := by
  induction l with
  | nil => rfl
  | cons t rest ih =>
    unfold findTlv
    rw [if_neg (h t (List.mem_cons_self t rest))]
    exact ih fun x hx => h x (List.mem_cons_of_mem t hx)

theorem findTlv_append_singleton {l : List Tlv} {r : Tlv} {tag : TlvTag}
    (h : ∀ t ∈ l, t.tag ≠ tag) (hr : r.tag = tag) :
    findTlv (l ++ [r]) tag = some r := by
  induction l with
  | nil => simp [findTlv, hr]
  | cons t rest ih =>
    rw [List.cons_append]
    unfold findTlv
    rw [if_neg (h t (List.mem_cons_self t rest))]
    exact ih fun x hx => h x (List.mem_cons_of_mem t hx)

theorem removeTlvList_eq_none {l : List Tlv} {tag : TlvTag}
    (h : ∀ t ∈ l, t.tag ≠ tag) : removeTlvList l tag = (none, l) := by
  induction l with
  | nil => rfl
  | cons t rest ih =>
    unfold removeTlvList
    rw [if_neg (h t (List.mem_cons_self t rest))]
    rw [ih fun x hx => h x (List.mem_cons_of_mem t hx)]

theorem removeTlvList_append_singleton {l : List Tlv} {r : Tlv}
    {tag : TlvTag} (h : ∀ t ∈ l, t.tag ≠ tag) (hr : r.tag = tag) :
    removeTlvList (l ++ [r]) tag = (some r, l) := by
  induction l with
  | nil => simp [removeTlvList, hr]
  | cons t rest ih =>
    rw [List.cons_append]
    unfold removeTlvList
    rw [if_neg (h t (List.mem_cons_self t rest))]
    rw [ih fun x hx => h x (List.mem_cons_of_mem t hx)]

theorem removeTlvList_some_decomp {l l' : List Tlv} {tag : TlvTag} {t : Tlv}
    (h : removeTlvList l tag = (some t, l')) :
    ∃ l1 l2, l = l1 ++ t :: l2 ∧ (∀ x ∈ l1, x.tag ≠ tag) ∧
      l' = l1 ++ l2 ∧ t.tag = tag := by
  induction l generalizing l' with
  | nil => simp [removeTlvList] at h
  | cons x rest ih =>
    unfold removeTlvList at h
    by_cases hx : x.tag = tag
    · rw [if_pos hx] at h
      injection h with h1 h2
      injection h1 with h1
      subst h1
      subst h2
      exact ⟨[], rest, rfl, by simp, rfl, hx⟩
    · rw [if_neg hx] at h
      cases hrec : removeTlvList rest tag with
      | mk r0 rest0 =>
        rw [hrec] at h
        injection h with h1 h2
        subst h1
        obtain ⟨l1, l2, hl, hno, hl', htag⟩ := ih hrec
        refine ⟨x :: l1, l2, by rw [hl]; rfl, ?_, ?_, htag⟩
        · intro y hy
          rcases List.mem_cons.mp hy with hyx | hy1
          · rw [hyx]; exact hx
          · exact hno y hy1
        · rw [← h2, hl']
          rfl

/-! ## Claim C1 — constructor record invariant -/

theorem new_custom_consistent_iff (tag : Nat) (bs : List Nat) :
    (Tlv.new_custom tag bs).consistent ↔ bs.length % 65536 = bs.length := by
  simp [Tlv.new_custom, Tlv.consistent, TlvValue.length, TlvValue.tag]

theorem new_value_length (v : TlvValue) :
    (Tlv.new v).value_length = v.length % 65536 := rfl

/-- Claim C1, amended: every TLV record produced by the constructors
`Tlv::new`, `new_custom`, `new_custom_u16`/`u32`/`u64` and
`new_custom_string` satisfies the record invariant — declared
`value_length` equals the exact encoded byte length of the value and
the record's tag equals the value's tag — provided the value's encoded
byte length is less than 2^16 (so the `as u16` cast in the constructor
does not truncate). The scalar constructors always satisfy this since
their payloads are 2, 4 or 8 bytes. -/
theorem c1_constructors_consistent :
    (∀ v : TlvValue, v.length < 65536 → (Tlv.new v).consistent) ∧
    (∀ tag bs, List.length bs < 65536 → (Tlv.new_custom tag bs).consistent) ∧
    (∀ tag x, (Tlv.new_custom_u16 tag x).consistent) ∧
    (∀ tag x, (Tlv.new_custom_u32 tag x).consistent) ∧
    (∀ tag x, (Tlv.new_custom_u64 tag x).consistent) ∧
    (∀ tag s, List.length s + 1 < 65536 →
      (Tlv.new_custom_string tag s).consistent) := by
  refine ⟨?_, ?_, ?_, ?_, ?_, ?_⟩
  · intro v h
    simp [Tlv.new, Tlv.consistent, Nat.mod_eq_of_lt h]
  · intro tag bs h
    simp [Tlv.new_custom, Tlv.consistent, TlvValue.length, TlvValue.tag,
      Nat.mod_eq_of_lt h]
  · intro tag x
    simp [Tlv.new_custom_u16, Tlv.new_custom, Tlv.consistent,
      TlvValue.length, TlvValue.tag, u16_to_be_bytes]
  · intro tag x
    simp [Tlv.new_custom_u32, Tlv.new_custom, Tlv.consistent,
      TlvValue.length, TlvValue.tag, u32_to_be_bytes]
  · intro tag x
    simp [Tlv.new_custom_u64, Tlv.new_custom, Tlv.consistent,
      TlvValue.length, TlvValue.tag, u64_to_be_bytes]
  · intro tag s h
    simp [Tlv.new_custom_string, Tlv.new_custom, Tlv.consistent,
      TlvValue.length, TlvValue.tag]
    omega

/-- Claim C1 counterexample: `new_custom` with a 65536-byte payload
produces `value_length = 0` (the `as u16` cast truncates) while the
value's encoded byte length is 65536, so the record violates the
invariant the claim asserts for every byte payload. -/
theorem c1_counterexample :
    ¬ (Tlv.new_custom 0x1400 (List.replicate 65536 0)).consistent := by
  rw [new_custom_consistent_iff, List.length_replicate]
  omega

/-- Witness for claim C1's amended theorem at concrete inputs. -/
theorem c1_witness :
    (Tlv.new (TlvValue.Known TlvTag.MessagePayload 5)).consistent ∧
    (Tlv.new_custom 0x1400 [1, 2, 3]).consistent ∧
    (Tlv.new_custom_u16 0x1401 7).consistent ∧
    (Tlv.new_custom_string 0x1402 [104, 105]).consistent :=
  ⟨c1_constructors_consistent.1 _ (by decide),
   c1_constructors_consistent.2.1 _ _ (by decide),
   c1_constructors_consistent.2.2.1 _ _,
   c1_constructors_consistent.2.2.2.2.2 _ _ (by decide)⟩

/-! ## Claim C3 — `Tlv::new` accessor equations -/

/-- Claim C3, amended: for every typed value `V` whose encoded byte
length is less than 2^16 (so the `as u16` cast does not truncate),
`Tlv::new V` yields a record with `value() = some V`,
`tag() = V.tag()` and `value_length() = encoded_length(V)`. The caller
supplies no length (visible in the signature of `Tlv.new`), and the
accessors `tag`, `value_length`, `value` are pure field reads, hence
side-effect-free. -/
theorem c3_new_accessors (v : TlvValue) (h : v.length < 65536) :
    (Tlv.new v).value = some v ∧ (Tlv.new v).tag = v.tag ∧
      (Tlv.new v).value_length = v.length := by
  refine ⟨rfl, rfl, ?_⟩
  rw [new_value_length]
  exact Nat.mod_eq_of_lt h

/-- Claim C3 counterexample: for the typed raw-bytes value holding a
65536-byte payload, `Tlv::new` truncates `value_length` (the `as u16`
cast), so `value_length()` differs from the value's encoded length and
the claim fails as stated for every typed value. -/
theorem c3_counterexample :
    (Tlv.new (TlvValue.Other (TlvTag.Other 0x1400)
        (List.replicate 65536 1))).value_length ≠
      (TlvValue.Other (TlvTag.Other 0x1400)
        (List.replicate 65536 1)).length := by
  rw [new_value_length, TlvValue.length, List.length_replicate]
  omega

/-- Witness for claim C3's amended theorem at a concrete value. -/
theorem c3_witness :
    (Tlv.new (TlvValue.Known TlvTag.MessagePayload 3)).value =
        some (TlvValue.Known TlvTag.MessagePayload 3) ∧
      (Tlv.new (TlvValue.Known TlvTag.MessagePayload 3)).tag =
        (TlvValue.Known TlvTag.MessagePayload 3).tag ∧
      (Tlv.new (TlvValue.Known TlvTag.MessagePayload 3)).value_length =
        (TlvValue.Known TlvTag.MessagePayload 3).length :=
  c3_new_accessors (TlvValue.Known TlvTag.MessagePayload 3) (by decide)

/-! ## Claim C4 — custom scalar round-trip -/

/-- Claim C4: for every numeric tag `t` and unsigned value `x` of the
matching width (modelled by `x < 2^16`, `x < 2^32`, `x < 2^64`, which
the Rust types `u16`/`u32`/`u64` guarantee), building a custom scalar
record and extracting at the same width round-trips, with big-endian
fixed-width encoding. -/
theorem c4_custom_scalar_roundtrip (tag x16 x32 x64 : Nat)
    (h16 : x16 < 2 ^ 16) (h32 : x32 < 2 ^ 32) (h64 : x64 < 2 ^ 64) :
    (Tlv.new_custom_u16 tag x16).extract_u16 = some x16 ∧
    (Tlv.new_custom_u32 tag x32).extract_u32 = some x32 ∧
    (Tlv.new_custom_u64 tag x64).extract_u64 = some x64 := by
  refine ⟨?_, ?_, ?_⟩
  · simp only [Tlv.new_custom_u16, Tlv.new_custom, Tlv.extract_u16,
      Tlv.extract_raw_bytes, u16_to_be_bytes, u16_from_be_bytes]
    norm_num
    omega
  · simp only [Tlv.new_custom_u32, Tlv.new_custom, Tlv.extract_u32,
      Tlv.extract_raw_bytes, u32_to_be_bytes, u32_from_be_bytes]
    norm_num
    omega
  · simp only [Tlv.new_custom_u64, Tlv.new_custom, Tlv.extract_u64,
      Tlv.extract_raw_bytes, u64_to_be_bytes, u64_from_be_bytes]
    norm_num
    omega

/-- Witness for claim C4 at concrete tag and values. -/
theorem c4_witness :
    (Tlv.new_custom_u16 0x1400 0xBEEF).extract_u16 = some 0xBEEF ∧
    (Tlv.new_custom_u32 0x1400 0xDEADBEEF).extract_u32 = some 0xDEADBEEF ∧
    (Tlv.new_custom_u64 0x1400 0x0123456789ABCDEF).extract_u64 =
      some 0x0123456789ABCDEF :=
  c4_custom_scalar_roundtrip 0x1400 0xBEEF 0xDEADBEEF 0x0123456789ABCDEF
    (by decide) (by decide) (by decide)

/-! ## Claim C5 — custom string round-trip -/

/-- Claim C5: for every numeric tag `t` and string `s` (modelled by its
UTF-8 byte list, so `utf8Valid s` holds — which Rust's `&str` type
guarantees) containing no embedded zero byte, building a custom string
record (UTF-8 bytes plus one trailing zero byte) and extracting it
round-trips; and on every custom record, extraction decodes the raw
payload as UTF-8 after removing exactly one trailing zero byte if
present. -/
theorem c5_custom_string_roundtrip (tag : Nat) (s bs : List Nat)
    (hvalid : utf8Valid s = true) (hnozero : ∀ b ∈ s, b ≠ 0) :
    (Tlv.new_custom_string tag s).extract_string = some s ∧
    (Tlv.new_custom tag bs).extract_string =
      string_from_utf8
        (if bs.getLast? = some 0 then bs.dropLast else bs) := by
  constructor
  · simp only [Tlv.new_custom_string, Tlv.new_custom, Tlv.extract_string,
      Tlv.extract_raw_bytes, List.getLast?_concat, List.dropLast_concat,
      if_pos]
    simp [string_from_utf8, hvalid]
  · rfl

/-- Witness for claim C5 at the concrete string "hi" = `[104, 105]`
(valid UTF-8, no embedded zero byte). -/
theorem c5_witness :
    (Tlv.new_custom_string 0x1402 [104, 105]).extract_string =
        some [104, 105] ∧
      (Tlv.new_custom 0x1402 [255]).extract_string =
        string_from_utf8
          (if [255].getLast? = some 0 then List.dropLast [255] else [255]) :=
  c5_custom_string_roundtrip 0x1402 [104, 105] [255] (by decide) (by decide)

/-! ## Claim C6 — no partial or truncated scalar decoding -/

/-- Claim C6: `extract_u16`, `extract_u32` and `extract_u64` return
nothing when the record's value is not the raw-bytes (`Other`) variant,
and when the raw payload length is not exactly 2, 4 or 8 bytes
respectively; there is no partial or truncated decoding. -/
theorem c6_no_partial_decode (t : Tlv) :
    ((∀ tg v, t.value ≠ some (TlvValue.Other tg v)) →
      t.extract_u16 = none ∧ t.extract_u32 = none ∧ t.extract_u64 = none) ∧
    (∀ tg v, t.value = some (TlvValue.Other tg v) →
      (List.length v ≠ 2 → t.extract_u16 = none) ∧
      (List.length v ≠ 4 → t.extract_u32 = none) ∧
      (List.length v ≠ 8 → t.extract_u64 = none)) := by
  constructor
  · intro h
    have hraw : t.extract_raw_bytes = none := by
      unfold Tlv.extract_raw_bytes
      match hv : t.value with
      | none => rfl
      | some (TlvValue.Known tg n) => rfl
      | some (TlvValue.Other tg v) => exact absurd hv (h tg v)
    refine ⟨?_, ?_, ?_⟩ <;>
      simp [Tlv.extract_u16, Tlv.extract_u32, Tlv.extract_u64, hraw]
  · intro tg v hv
    have hraw : t.extract_raw_bytes = some v := by
      unfold Tlv.extract_raw_bytes
      rw [hv]
    refine ⟨?_, ?_, ?_⟩ <;> intro hlen <;>
      simp [Tlv.extract_u16, Tlv.extract_u32, Tlv.extract_u64, hraw, hlen]

/-- Witness for claim C6: a 3-byte custom payload decodes at no scalar
width, and a typed (non-raw) record decodes at none either. -/
theorem c6_witness :
    (Tlv.new_custom 0x1400 [1, 2, 3]).extract_u16 = none ∧
    (Tlv.new_custom 0x1400 [1, 2, 3]).extract_u32 = none ∧
    (Tlv.new_custom 0x1400 [1, 2, 3]).extract_u64 = none ∧
    (Tlv.new (TlvValue.Known TlvTag.MessagePayload 2)).extract_u16 = none := by
  have h3 := (c6_no_partial_decode (Tlv.new_custom 0x1400 [1, 2, 3])).2
    (TlvTag.Other 0x1400) [1, 2, 3] rfl
  have hk := (c6_no_partial_decode
    (Tlv.new (TlvValue.Known TlvTag.MessagePayload 2))).1 (by
      intro tg v h
      exact TlvValue.noConfusion (Option.some.inj h))
  exact ⟨h3.1 (by decide), h3.2.1 (by decide), h3.2.2 (by decide), hk.1⟩

/-! ## Container helper lemmas -/

theorem clear_hook_tlvs (q : SubmitSm) :
    q.clear_short_message_if_message_payload_exists.tlvs = q.tlvs := by
  unfold SubmitSm.clear_short_message_if_message_payload_exists
  split <;> rfl

theorem push_tlv_raw_tlvs (p : SubmitSm) (r : Tlv) :
    (p.push_tlv_raw r).tlvs = p.tlvs ++ [r] :=
  clear_hook_tlvs _

theorem submit_get_tlv_eq (p : SubmitSm) (tag : TlvTag) :
    p.get_tlv tag = findTlv p.tlvs tag := rfl

theorem submit_remove_tlv_fst (p : SubmitSm) (tag : TlvTag) :
    (p.remove_tlv tag).1 = (removeTlvList p.tlvs tag).1 := rfl

theorem submit_remove_tlv_snd_tlvs (p : SubmitSm) (tag : TlvTag) :
    (p.remove_tlv tag).2.tlvs = (removeTlvList p.tlvs tag).2 := rfl

theorem push_tlv_raw_short_message_eq_nil (p : SubmitSm) (r : Tlv)
    (h : ∃ t ∈ p.tlvs ++ [r], t.tag = TlvTag.MessagePayload) :
    (p.push_tlv_raw r).short_message = [] := by
  have hb : ((p.tlvs ++ [r]).any fun t =>
      t.tag = TlvTag.MessagePayload) = true := by
    simp only [List.any_eq_true, decide_eq_true_eq]
    exact h
  unfold SubmitSm.push_tlv_raw
    SubmitSm.clear_short_message_if_message_payload_exists
  rw [if_pos hb]

/-! ## Claim C2 — pushing a message-payload TLV clears short_message -/

/-- Claim C2: for a PDU kind with both a fixed short-message field and
the `with_short_message_clear` container variant (`SubmitSm`), and for
every prior content of the short-message field, `push_tlv_raw` with a
record tagged `MessagePayload` appends the record and sets the
short-message field to the empty value in that same call. -/
theorem c2_message_payload_push_clears (p : SubmitSm) (r : Tlv)
    (h : r.tag = TlvTag.MessagePayload) :
    (p.push_tlv_raw r).tlvs = p.tlvs ++ [r] ∧
    (p.push_tlv_raw r).short_message = [] := by
  refine ⟨push_tlv_raw_tlvs p r, ?_⟩
  exact push_tlv_raw_short_message_eq_nil p r
    ⟨r, List.mem_append_right _ (List.mem_singleton.mpr rfl), h⟩

/-- Witness for claim C2: pushing a message-payload record onto a PDU
whose short-message field is non-empty empties that field. -/
theorem c2_witness :
    (SubmitSm.push_tlv_raw
        { short_message := [72, 73], tlvs := [] }
        (Tlv.new (TlvValue.Known TlvTag.MessagePayload 4))).tlvs =
      [] ++ [Tlv.new (TlvValue.Known TlvTag.MessagePayload 4)] ∧
    (SubmitSm.push_tlv_raw
        { short_message := [72, 73], tlvs := [] }
        (Tlv.new (TlvValue.Known TlvTag.MessagePayload 4))).short_message =
      [] :=
  c2_message_payload_push_clears
    { short_message := [72, 73], tlvs := [] }
    (Tlv.new (TlvValue.Known TlvTag.MessagePayload 4)) rfl

/-! ## Claim C7 — find/remove life cycle -/

/-- Claim C7: for every container state holding no record tagged `T`
and every record `r` with tag `T`: after `push_tlv_raw r`,
`has_tlv T` and `get_tlv T = some r` (first-match lookup); after
`remove_tlv T` the removed record is `r`, `has_tlv T` is false and a
second `remove_tlv T` returns nothing. All operations are total Lean
functions, so none can fail: absence is `none`/`false`. -/
theorem c7_container_find_remove (p : SubmitSm) (r : Tlv)
    (h : ∀ t ∈ p.tlvs, t.tag ≠ r.tag) :
    (p.push_tlv_raw r).has_tlv r.tag = true ∧
    (p.push_tlv_raw r).get_tlv r.tag = some r ∧
    ((p.push_tlv_raw r).remove_tlv r.tag).1 = some r ∧
    (((p.push_tlv_raw r).remove_tlv r.tag).2).has_tlv r.tag = false ∧
    ((((p.push_tlv_raw r).remove_tlv r.tag).2).remove_tlv r.tag).1 =
      none := by
  have hfind : findTlv ((p.push_tlv_raw r).tlvs) r.tag = some r := by
    rw [push_tlv_raw_tlvs]
    exact findTlv_append_singleton h rfl
  have hrem : removeTlvList ((p.push_tlv_raw r).tlvs) r.tag =
      (some r, p.tlvs) := by
    rw [push_tlv_raw_tlvs]
    exact removeTlvList_append_singleton h rfl
  refine ⟨?_, ?_, ?_, ?_, ?_⟩
  · rw [SubmitSm.has_tlv, submit_get_tlv_eq, hfind]
    rfl
  · rw [submit_get_tlv_eq, hfind]
  · rw [submit_remove_tlv_fst, hrem]
  · rw [SubmitSm.has_tlv, submit_get_tlv_eq, submit_remove_tlv_snd_tlvs,
      hrem]
    rw [findTlv_eq_none h]
    rfl
  · rw [submit_remove_tlv_fst, submit_remove_tlv_snd_tlvs, hrem]
    rw [removeTlvList_eq_none h]

/-- Witness for claim C7 on a concrete PDU holding one record of a
different tag. -/
theorem c7_witness :
    (SubmitSm.push_tlv_raw
        { short_message := [], tlvs := [Tlv.new_custom 0x1401 [7]] }
        (Tlv.new_custom 0x1400 [9])).has_tlv
      (Tlv.new_custom 0x1400 [9]).tag = true ∧
    (SubmitSm.push_tlv_raw
        { short_message := [], tlvs := [Tlv.new_custom 0x1401 [7]] }
        (Tlv.new_custom 0x1400 [9])).get_tlv
      (Tlv.new_custom 0x1400 [9]).tag = some (Tlv.new_custom 0x1400 [9]) ∧
    ((SubmitSm.push_tlv_raw
        { short_message := [], tlvs := [Tlv.new_custom 0x1401 [7]] }
        (Tlv.new_custom 0x1400 [9])).remove_tlv
      (Tlv.new_custom 0x1400 [9]).tag).1 = some (Tlv.new_custom 0x1400 [9]) ∧
    (((SubmitSm.push_tlv_raw
        { short_message := [], tlvs := [Tlv.new_custom 0x1401 [7]] }
        (Tlv.new_custom 0x1400 [9])).remove_tlv
      (Tlv.new_custom 0x1400 [9]).tag).2).has_tlv
      (Tlv.new_custom 0x1400 [9]).tag = false ∧
    ((((SubmitSm.push_tlv_raw
        { short_message := [], tlvs := [Tlv.new_custom 0x1401 [7]] }
        (Tlv.new_custom 0x1400 [9])).remove_tlv
      (Tlv.new_custom 0x1400 [9]).tag).2).remove_tlv
      (Tlv.new_custom 0x1400 [9]).tag).1 = none :=
  c7_container_find_remove
    { short_message := [], tlvs := [Tlv.new_custom 0x1401 [7]] }
    (Tlv.new_custom 0x1400 [9]) (by decide)

/-! ## Claim C8 — insertion order and order-preserving removal -/

/-- Claim C8: `push_tlv_raw` appends at the end, so pushing `r1`, `r2`,
`r3` into an empty container and calling `get_tlvs` yields
`[r1, r2, r3]`; and `remove_tlv` removes only the first matching record
(every record before it has a non-matching tag), with all other records
kept in their original relative order (`l1 ++ l2`). Stated on the basic
macro variant (`DataSm`). -/
theorem c8_container_order (r1 r2 r3 : Tlv) (p : DataSm) (tag : TlvTag)
    (t : Tlv) (l' : List Tlv)
    (hrem : p.remove_tlv tag = (some t, DataSm.mk l')) :
    ((((DataSm.mk []).push_tlv_raw r1).push_tlv_raw r2).push_tlv_raw
        r3).get_tlvs = [r1, r2, r3] ∧
    ∃ l1 l2, p.tlvs = l1 ++ t :: l2 ∧ (∀ x ∈ l1, x.tag ≠ tag) ∧
      l' = l1 ++ l2 := by
  constructor
  · rfl
  · have h1 : (p.remove_tlv tag).1 = some t := by rw [hrem]
    have h2 : (p.remove_tlv tag).2.tlvs = l' := by rw [hrem]
    have e1 : (p.remove_tlv tag).1 = (removeTlvList p.tlvs tag).1 := rfl
    have e2 : (p.remove_tlv tag).2.tlvs = (removeTlvList p.tlvs tag).2 :=
      rfl
    rw [e1] at h1
    rw [e2] at h2
    have hrem' : removeTlvList p.tlvs tag = (some t, l') := by
      cases hq : removeTlvList p.tlvs tag with
      | mk a b =>
        rw [hq] at h1 h2
        simp only at h1 h2
        rw [h1, h2]
    obtain ⟨l1, l2, hl, hno, hl', _⟩ := removeTlvList_some_decomp hrem'
    exact ⟨l1, l2, hl, hno, hl'⟩

/-- Witness for claim C8 on a concrete three-record container holding a
duplicate tag: removal takes only the first match. -/
theorem c8_witness :
    ((((DataSm.mk []).push_tlv_raw (Tlv.new_custom 0x1400 [1])).push_tlv_raw
        (Tlv.new_custom 0x1401 [2])).push_tlv_raw
        (Tlv.new_custom 0x1402 [3])).get_tlvs =
      [Tlv.new_custom 0x1400 [1], Tlv.new_custom 0x1401 [2],
        Tlv.new_custom 0x1402 [3]] ∧
    ∃ l1 l2,
      (DataSm.mk [Tlv.new_custom 0x1401 [2], Tlv.new_custom 0x1400 [1],
        Tlv.new_custom 0x1400 [4]]).tlvs =
          l1 ++ Tlv.new_custom 0x1400 [1] :: l2 ∧
        (∀ x ∈ l1, x.tag ≠ TlvTag.Other 0x1400) ∧
        [Tlv.new_custom 0x1401 [2], Tlv.new_custom 0x1400 [4]] = l1 ++ l2 :=
  c8_container_order (Tlv.new_custom 0x1400 [1]) (Tlv.new_custom 0x1401 [2])
    (Tlv.new_custom 0x1402 [3])
    (DataSm.mk [Tlv.new_custom 0x1401 [2], Tlv.new_custom 0x1400 [1],
      Tlv.new_custom 0x1400 [4]])
    (TlvTag.Other 0x1400) (Tlv.new_custom 0x1400 [1])
    [Tlv.new_custom 0x1401 [2], Tlv.new_custom 0x1400 [4]] (by decide)

/-! ## Claim C9 — removal and clearing leave short_message untouched -/

/-- Claim C9: on the `with_short_message_clear` variant (`SubmitSm`),
`remove_tlv` with the message-payload tag (indeed, any tag) removes the
record exactly as the shared list-level removal does but leaves the
short-message field exactly as it was — the clearing side effect of
insertion is not reversed; and `clear_tlvs` empties the TLV sequence
without restoring any previously cleared field. -/
theorem c9_remove_preserves_short_message (p : SubmitSm) (tag : TlvTag) :
    ((p.remove_tlv TlvTag.MessagePayload).2).short_message =
        p.short_message ∧
      (p.remove_tlv TlvTag.MessagePayload).1 =
        (removeTlvList p.tlvs TlvTag.MessagePayload).1 ∧
      ((p.remove_tlv tag).2).short_message = p.short_message ∧
      (p.clear_tlvs).short_message = p.short_message ∧
      (p.clear_tlvs).tlvs = [] :=
  ⟨rfl, rfl, rfl, rfl, rfl⟩

/-! ## Claim C10 — the clearing hook runs after every push -/

/-- Claim C10: in the `with_short_message_clear` variant, the
short-message-clearing check runs unconditionally after every push:
for every record `r` of any tag, if after appending `r` the TLV
sequence contains a `MessagePayload`-tagged record, the short-message
field is cleared as part of that same `push_tlv_raw` call — in
particular pushing a record of any other tag while a message-payload
TLV is already present also clears the field. -/
theorem c10_push_clears_whenever_payload_present (p : SubmitSm) (r : Tlv)
    (h : ∃ t ∈ p.tlvs ++ [r], t.tag = TlvTag.MessagePayload) :
    (p.push_tlv_raw r).short_message = [] ∧
    (p.push_tlv_raw r).tlvs = p.tlvs ++ [r] :=
  ⟨push_tlv_raw_short_message_eq_nil p r h, push_tlv_raw_tlvs p r⟩

/-- Witness for claim C10: pushing a vendor-tagged record while a
message-payload TLV is already in the sequence clears a non-empty
short-message field. -/
theorem c10_witness :
    (SubmitSm.push_tlv_raw
        { short_message := [65, 66],
          tlvs := [Tlv.new (TlvValue.Known TlvTag.MessagePayload 4)] }
        (Tlv.new_custom 0x1400 [9])).short_message = [] ∧
    (SubmitSm.push_tlv_raw
        { short_message := [65, 66],
          tlvs := [Tlv.new (TlvValue.Known TlvTag.MessagePayload 4)] }
        (Tlv.new_custom 0x1400 [9])).tlvs =
      [Tlv.new (TlvValue.Known TlvTag.MessagePayload 4)] ++
        [Tlv.new_custom 0x1400 [9]] :=
  c10_push_clears_whenever_payload_present
    { short_message := [65, 66],
      tlvs := [Tlv.new (TlvValue.Known TlvTag.MessagePayload 4)] }
    (Tlv.new_custom 0x1400 [9])
    ⟨Tlv.new (TlvValue.Known TlvTag.MessagePayload 4),
      List.mem_append_left _ (List.mem_singleton.mpr rfl), rfl⟩

end Rusmpp
